import Mathlib

/-!
# Food-department kitchen-inventory core: verification of the spoilage
engine and the stock-mutation action layer.

Shallow embedding of the TypeScript sources:
* `src/entities/ingredient.ts` — the `Ingredient` record and its field types;
* `src/engines/spoilage.ts` — `computeSpoilage`, `enrichWithSpoilage`,
  `sortByExpiryUrgency`;
* `src/actions/buyIngredient.ts` — the `buyIngredient` workflow action;
* the CRUD module — `createIngredient`, `updateIngredient`,
  `deleteIngredient` against the Dexie record store.

Modelling choices:
* Instants are `Int` milliseconds since the epoch (what `Date.getTime()`
  returns).  Calendar-day addition (`setDate(getDate() + n)`) is modelled in
  a timezone without DST transitions, where adding `n` calendar days adds
  exactly `n * 86400000` ms.
* JS numbers that the code only ever treats as finite reals are `ℚ`;
  the one place the code must distinguish `NaN`/`±Infinity` (the
  `purchasedQty` validation in `buyIngredient`) uses the `JSNum` type.
* The `purchasedAt : string | null` field is abstracted (`DateStr`) by how
  `new Date(s)` parses it: falsy (null/empty), truthy-but-unparseable, or
  parsing to a definite instant.
* The Dexie store is a finite association list keyed by `id`; a rejecting
  store operation / transaction is injected through an explicit
  `Option String` parameter (the rejection message), since rejection is a
  behaviour of the external collaborator, not of this code.
-/

/-- Milliseconds per day, `24 * 60 * 60 * 1000` from `computeSpoilage`. -/
def msPerDay : Int := 24 * 60 * 60 * 1000

/-- A JS `string | null` date value, abstracted by how `new Date(s)` parses
it.  `nullish` covers the falsy values (null, empty string) caught by
`!ingredient.purchasedAt`; `invalid` is a truthy string whose parse yields
`NaN`; `valid ms` is a string parsing to the instant `ms`. -/
inductive DateStr where
  | nullish : DateStr
  | invalid : DateStr
  | valid : Int → DateStr
deriving DecidableEq

/-- Spoilage status enum from `src/entities/ingredient.ts`. -/
inductive SpoilageStatus where
  | Fresh : SpoilageStatus
  | NearExpiry : SpoilageStatus
  | Expired : SpoilageStatus
  | Unknown : SpoilageStatus
deriving DecidableEq

/-- The persisted `Ingredient` entity.  `shelfLifeDays` is `Option Int`:
`none` models the falsy / non-numeric values caught by
`!ingredient.shelfLifeDays` (undefined, NaN); an actual number `n` is
`some n` (the falsy `0` is caught by the `<= 0` test just as in the code). -/
structure Ingredient where
  id : String
  name : String
  unit : String
  stockQty : ℚ
  shelfLifeDays : Option Int
  purchasedAt : DateStr
deriving DecidableEq

/-- `SpoilageResult` from `src/engines/spoilage.ts`. -/
structure SpoilageResult where
  expiryDate : Option Int
  daysRemaining : Option Int
  spoilageStatus : SpoilageStatus
deriving DecidableEq

/-- `computeSpoilage(ingredient, currentDate, nearExpiryThresholdDays)`.
The threshold defaults to 3 at the TS call sites; here it is passed
explicitly.  Mirrors the source: falsy `purchasedAt` → Unknown; falsy or
non-positive `shelfLifeDays` → Unknown; unparseable `purchasedAt` →
Unknown; otherwise expiry = purchase + shelfLifeDays calendar days,
`daysRemaining = Math.ceil((expiry - now) / msPerDay)`, and the ordered
status decision.  Total by construction: it raises nothing. -/
def computeSpoilage (ingredient : Ingredient) (currentDate : Int)
    (nearExpiryThresholdDays : Int) : SpoilageResult :=
  if ingredient.purchasedAt = DateStr.nullish then
    { expiryDate := none, daysRemaining := none, spoilageStatus := .Unknown }
  else
    match ingredient.shelfLifeDays with
    | none => { expiryDate := none, daysRemaining := none, spoilageStatus := .Unknown }
    | some shelfLifeDays =>
      if shelfLifeDays ≤ 0 then
        { expiryDate := none, daysRemaining := none, spoilageStatus := .Unknown }
      else
        match ingredient.purchasedAt with
        | DateStr.valid purchaseMs =>
          let expiryDate : Int := purchaseMs + shelfLifeDays * msPerDay
          let diffMs : Int := expiryDate - currentDate
          let daysRemaining : Int := Int.ceil ((diffMs : ℚ) / (msPerDay : ℚ))
          let spoilageStatus : SpoilageStatus :=
            if daysRemaining < 0 then .Expired
            else if daysRemaining ≤ nearExpiryThresholdDays then .NearExpiry
            else .Fresh
          { expiryDate := some expiryDate, daysRemaining := some daysRemaining,
            spoilageStatus := spoilageStatus }
        | _ => { expiryDate := none, daysRemaining := none, spoilageStatus := .Unknown }

/-- `IngredientWithSpoilage`: the ingredient together with its derived view. -/
structure IngredientWithSpoilage where
  id : String
  name : String
  unit : String
  stockQty : ℚ
  shelfLifeDays : Option Int
  purchasedAt : DateStr
  inStock : Bool
  expiryDate : Option Int
  daysRemaining : Option Int
  spoilageStatus : SpoilageStatus
deriving DecidableEq

/-- `enrichWithSpoilage(ingredient, currentDate)`: spreads the ingredient and
attaches `inStock = stockQty > 0` plus the spoilage computation (default
threshold 3). -/
def enrichWithSpoilage (ingredient : Ingredient) (currentDate : Int) :
    IngredientWithSpoilage :=
  let spoilage := computeSpoilage ingredient currentDate 3
  { id := ingredient.id, name := ingredient.name, unit := ingredient.unit,
    stockQty := ingredient.stockQty, shelfLifeDays := ingredient.shelfLifeDays,
    purchasedAt := ingredient.purchasedAt,
    inStock := decide (0 < ingredient.stockQty),
    expiryDate := spoilage.expiryDate,
    daysRemaining := spoilage.daysRemaining,
    spoilageStatus := spoilage.spoilageStatus }

/-- `enrichAllWithSpoilage(ingredients, currentDate)`. -/
def enrichAllWithSpoilage (ingredients : List Ingredient) (currentDate : Int) :
    List IngredientWithSpoilage :=
  ingredients.map (fun ing => enrichWithSpoilage ing currentDate)

/-- The `statusOrder` record literal inside `sortByExpiryUrgency`. -/
def statusOrder : SpoilageStatus → Int
  | .Expired => 0
  | .NearExpiry => 1
  | .Fresh => 2
  | .Unknown => 3

/-- The comparator passed to `Array.prototype.sort` in `sortByExpiryUrgency`:
status precedence first, then `daysRemaining` ascending with nulls last. -/
def compareUrgency (a b : IngredientWithSpoilage) : Int :=
  let statusDiff := statusOrder a.spoilageStatus - statusOrder b.spoilageStatus
  if statusDiff ≠ 0 then statusDiff
  else
    match a.daysRemaining, b.daysRemaining with
    | none, none => 0
    | none, some _ => 1
    | some _, none => -1
    | some x, some y => x - y

/-- `sortByExpiryUrgency(ingredients)`: sorts a copy of the input with the
urgency comparator.  `Array.prototype.sort` is stable (ES2019), so it is
embedded as a stable merge sort; the input list is never mutated (the source
sorts a spread copy, and the embedding is pure). -/
def sortByExpiryUrgency (ingredients : List IngredientWithSpoilage) :
    List IngredientWithSpoilage :=
  ingredients.mergeSort (fun a b => decide (compareUrgency a b ≤ 0))

/-- A JS number as seen by the `buyIngredient` validation: either finite
(with exact value) or one of the non-finite values rejected by
`Number.isFinite`. -/
inductive JSNum where
  | nan : JSNum
  | posInf : JSNum
  | negInf : JSNum
  | fin : ℚ → JSNum
deriving DecidableEq

/-- The JS comparison `purchasedQty <= 0`: false on NaN and +Infinity,
true on -Infinity, the numeric comparison on finite values. -/
def JSNum.leZero : JSNum → Bool
  | .nan => false
  | .posInf => false
  | .negInf => true
  | .fin q => decide (q ≤ 0)

/-- `Number.isFinite`. -/
def JSNum.isFinite : JSNum → Bool
  | .fin _ => true
  | _ => false

/-- The Dexie `ingredients` table: an association list keyed by `id`. -/
abbrev Store : Type := List (String × Ingredient)

/-- `db.ingredients.get(id)`: the record stored under `id`, if any. -/
def Store.get : Store → String → Option Ingredient
  | [], _ => none
  | (k, v) :: rest, id => if k = id then some v else Store.get rest id

/-- `db.ingredients.update(id, changes)`: merge `changes` (here a record
transformer) into the record stored under `id`; a no-op on absent ids. -/
def Store.updateFields : Store → String → (Ingredient → Ingredient) → Store
  | [], _, _ => []
  | (k, v) :: rest, id, f =>
    if k = id then (k, f v) :: Store.updateFields rest id f
    else (k, v) :: Store.updateFields rest id f

/-- `db.ingredients.delete(id)`. -/
def Store.remove (s : Store) (id : String) : Store :=
  s.filter (fun kv => kv.1 ≠ id)

/-- `BuyIngredientInput` from `src/actions/buyIngredient.ts`. -/
structure BuyIngredientInput where
  ingredientId : String
  purchasedQty : JSNum

/-- `BuyIngredientResult` from `src/actions/buyIngredient.ts`. -/
structure BuyIngredientResult where
  success : Bool
  error : Option String
  updatedIngredient : Option Ingredient
  previousStockQty : Option ℚ
  newStockQty : Option ℚ
deriving DecidableEq

/-- `buyIngredient(input)`.  State-passing embedding: takes the store, an
injected transaction behaviour (`txFail = some msg` models the Dexie
transaction rejecting with `msg` for any store-level reason, rolling back
all writes), and the current instant (`new Date()`), and returns the result
together with the post-call store.  The source validates `purchasedQty <= 0`
and then `!Number.isFinite(purchasedQty)` before any store access; inside
the transaction it throws on a missing id (caught by the surrounding
`try`/`catch` and converted to a failure result); on the happy path it
writes `stockQty` and `purchasedAt` together and re-reads the record. -/
def buyIngredient (input : BuyIngredientInput) (store : Store)
    (txFail : Option String) (now : Int) : BuyIngredientResult × Store :=
  if JSNum.leZero input.purchasedQty then
    ({ success := false, error := some "Purchase quantity must be greater than 0",
       updatedIngredient := none, previousStockQty := none, newStockQty := none },
     store)
  else
    match input.purchasedQty with
    | JSNum.fin purchasedQty =>
      match txFail with
      | some msg =>
        ({ success := false, error := some msg, updatedIngredient := none,
           previousStockQty := none, newStockQty := none }, store)
      | none =>
        match Store.get store input.ingredientId with
        | none =>
          ({ success := false, error := some "Ingredient not found",
             updatedIngredient := none, previousStockQty := none,
             newStockQty := none }, store)
        | some ingredient =>
          let previousStockQty := ingredient.stockQty
          let newStockQty := previousStockQty + purchasedQty
          let store' := Store.updateFields store input.ingredientId
            (fun ing =>
              { ing with
                stockQty := newStockQty
                purchasedAt := DateStr.valid now })
          ({ success := true, error := none,
             updatedIngredient := Store.get store' input.ingredientId,
             previousStockQty := some previousStockQty,
             newStockQty := some newStockQty }, store')
    | _ =>
      ({ success := false, error := some "Purchase quantity must be a valid number",
         updatedIngredient := none, previousStockQty := none, newStockQty := none },
       store)

/-- `IngredientFormData`. -/
structure IngredientFormData where
  name : String
  unit : String
  stockQty : ℚ
  shelfLifeDays : Int

/-- The partial form data accepted by `updateIngredient` (each field
optional). -/
structure IngredientFormPatch where
  name : Option String
  unit : Option String
  stockQty : Option ℚ
  shelfLifeDays : Option Int

/-- `createIngredient(data)`: builds the record with a fresh id (the
external uuid generator is the `freshId` parameter), trimmed `name`/`unit`,
and `purchasedAt = null`, then `db.ingredients.add`s it.  There is no
`try`/`catch`: a rejecting `add` (`addFail = some msg`) propagates to the
caller, modelled as `Except.error msg`. -/
def createIngredient (freshId : String) (data : IngredientFormData)
    (store : Store) (addFail : Option String) : Except String (Ingredient × Store) :=
  let ingredient : Ingredient :=
    { id := freshId, name := data.name.trim, unit := data.unit.trim,
      stockQty := data.stockQty, shelfLifeDays := some data.shelfLifeDays,
      purchasedAt := DateStr.nullish }
  match addFail with
  | some msg => Except.error msg
  | none => Except.ok (ingredient, store ++ [(freshId, ingredient)])

/-- `updateIngredient(id, data)`: fetch-or-null; on a present id merges
exactly the fields present in the patch (textual fields trimmed) into the
stored record, never touching `id` or `purchasedAt`, then re-reads.  No
`try`/`catch`: a rejecting store operation (`opFail`) propagates. -/
def updateIngredient (id : String) (data : IngredientFormPatch)
    (store : Store) (opFail : Option String) :
    Except String (Option Ingredient × Store) :=
  match opFail with
  | some msg => Except.error msg
  | none =>
    match Store.get store id with
    | none => Except.ok (none, store)
    | some _ =>
      let store' := Store.updateFields store id (fun ing =>
        { ing with
          name := match data.name with
            | some n => n.trim
            | none => ing.name,
          unit := match data.unit with
            | some u => u.trim
            | none => ing.unit,
          stockQty := match data.stockQty with
            | some q => q
            | none => ing.stockQty,
          shelfLifeDays := match data.shelfLifeDays with
            | some d => some d
            | none => ing.shelfLifeDays })
      Except.ok (Store.get store' id, store')

/-- `deleteIngredient(id)`: fetch-or-false; deletes and returns true on a
present id.  No `try`/`catch`: a rejecting store operation propagates. -/
def deleteIngredient (id : String) (store : Store) (opFail : Option String) :
    Except String (Bool × Store) :=
  match opFail with
  | some msg => Except.error msg
  | none =>
    match Store.get store id with
    | none => Except.ok (false, store)
    | some _ => Except.ok (true, Store.remove store id)

/-- Forward-only status evolution: as the reference instant advances, a
status may stay put or move along Fresh → NearExpiry → Expired, and Unknown
stays Unknown. -/
def statusStep : SpoilageStatus → SpoilageStatus → Bool
  | .Fresh, .Fresh => true
  | .Fresh, .NearExpiry => true
  | .Fresh, .Expired => true
  | .NearExpiry, .NearExpiry => true
  | .NearExpiry, .Expired => true
  | .Expired, .Expired => true
  | .Unknown, .Unknown => true
  | _, _ => false

/-- Nulls-last order on `daysRemaining` values, used to state the
within-bucket ordering of `sortByExpiryUrgency`. -/
def drNullsLastLe : Option Int → Option Int → Bool
  | some x, some y => decide (x ≤ y)
  | _, none => true
  | none, some _ => false

/-- Fixture: the C7 scenario record `{stockQty: 2, purchasedAt: null}`. -/
def sampleIngredient : Ingredient :=
  { id := "ing-1", name := "Milk", unit := "L", stockQty := 2,
    shelfLifeDays := some 7, purchasedAt := DateStr.nullish }

/-- Fixture: a purchased ingredient with a 7-day shelf life bought at the
epoch. -/
def purchasedIngredient : Ingredient :=
  { id := "ing-2", name := "Yogurt", unit := "pcs", stockQty := 1,
    shelfLifeDays := some 7, purchasedAt := DateStr.valid 0 }

/-- Fixture: a one-record store holding `sampleIngredient`. -/
def sampleStore : Store := [("ing-1", sampleIngredient)]

/-- Fixture: two enriched records with equal status and equal
`daysRemaining`, for the stability witness. -/
def enrichedA : IngredientWithSpoilage :=
  { id := "a", name := "A", unit := "g", stockQty := 1,
    shelfLifeDays := some 7, purchasedAt := DateStr.valid 0, inStock := true,
    expiryDate := some (7 * msPerDay), daysRemaining := some 5,
    spoilageStatus := .Fresh }

/-- Fixture: see `enrichedA`. -/
def enrichedB : IngredientWithSpoilage :=
  { id := "b", name := "B", unit := "g", stockQty := 1,
    shelfLifeDays := some 7, purchasedAt := DateStr.valid 0, inStock := true,
    expiryDate := some (7 * msPerDay), daysRemaining := some 5,
    spoilageStatus := .Fresh }

/-- Fixture: an enriched record with Unknown status and null
`daysRemaining`. -/
def enrichedUnknown : IngredientWithSpoilage :=
  { id := "u", name := "U", unit := "g", stockQty := 0,
    shelfLifeDays := some 7, purchasedAt := DateStr.nullish, inStock := false,
    expiryDate := none, daysRemaining := none, spoilageStatus := .Unknown }

/-- C1: for a valid ingredient (parsing `purchasedAt`, positive
`shelfLifeDays`) and a non-negative threshold, `computeSpoilage` returns
expiry = purchase + shelfLifeDays days, `daysRemaining` the ceiling of the
remaining duration in days, and the status classification Expired iff
`daysRemaining < 0`, NearExpiry iff `0 ≤ daysRemaining ≤ threshold`, Fresh
iff `daysRemaining > threshold`. -/
theorem computeSpoilage_valid_contract (i : Ingredient) (now thr t s : Int)
    (hthr : 0 ≤ thr) (hpa : i.purchasedAt = DateStr.valid t)
    (hsl : i.shelfLifeDays = some s) (hs : 0 < s) :
    computeSpoilage i now thr =
      { expiryDate := some (t + s * msPerDay)
        daysRemaining := some (Int.ceil (((t + s * msPerDay - now : Int) : ℚ) / (msPerDay : ℚ)))
        spoilageStatus :=
          if Int.ceil (((t + s * msPerDay - now : Int) : ℚ) / (msPerDay : ℚ)) < 0 then
            SpoilageStatus.Expired
          else if Int.ceil (((t + s * msPerDay - now : Int) : ℚ) / (msPerDay : ℚ)) ≤ thr then
            SpoilageStatus.NearExpiry
          else SpoilageStatus.Fresh } ∧
    (∀ dr : Int, (computeSpoilage i now thr).daysRemaining = some dr →
      (((computeSpoilage i now thr).spoilageStatus = SpoilageStatus.Expired ↔ dr < 0) ∧
       ((computeSpoilage i now thr).spoilageStatus = SpoilageStatus.NearExpiry ↔
          0 ≤ dr ∧ dr ≤ thr) ∧
       ((computeSpoilage i now thr).spoilageStatus = SpoilageStatus.Fresh ↔ thr < dr))) := by
  have hmain :
      computeSpoilage i now thr =
        { expiryDate := some (t + s * msPerDay)
          daysRemaining := some (Int.ceil (((t + s * msPerDay - now : Int) : ℚ) / (msPerDay : ℚ)))
          spoilageStatus :=
            if Int.ceil (((t + s * msPerDay - now : Int) : ℚ) / (msPerDay : ℚ)) < 0 then
              SpoilageStatus.Expired
            else if Int.ceil (((t + s * msPerDay - now : Int) : ℚ) / (msPerDay : ℚ)) ≤ thr then
              SpoilageStatus.NearExpiry
            else SpoilageStatus.Fresh } := by
    simp only [computeSpoilage, hpa, hsl, reduceCtorEq, if_false]
    rw [if_neg (by omega)]
  refine ⟨hmain, ?_⟩
  intro dr hdr
  rw [hmain] at hdr ⊢
  simp only [Option.some.injEq] at hdr
  subst hdr
  split_ifs with h1 h2 <;> refine ⟨?_, ?_, ?_⟩ <;>
    simp only [reduceCtorEq, eq_self_iff_true, true_iff, false_iff, iff_true,
      iff_false, not_lt, not_and, not_le] <;>
    omega

/-- C1 witness: the spec scenario `{shelfLifeDays: 7, purchasedAt: T}`,
`now = T + 4 days`, threshold 3, yields `daysRemaining = 3` and status
NearExpiry. -/
theorem computeSpoilage_valid_contract_witness :
    computeSpoilage purchasedIngredient (4 * msPerDay) 3 =
      { expiryDate := some (7 * msPerDay), daysRemaining := some 3,
        spoilageStatus := SpoilageStatus.NearExpiry } := by
  have h := (computeSpoilage_valid_contract purchasedIngredient (4 * msPerDay) 3 0 7
    (by norm_num) rfl rfl (by norm_num)).1
  rw [h]
  have hc : Int.ceil (((0 + 7 * msPerDay - 4 * msPerDay : Int) : ℚ) / (msPerDay : ℚ)) = 3 := by
    rw [show msPerDay = 86400000 from rfl]
    push_cast
    norm_num
  rw [hc]
  norm_num [msPerDay]

/-- C2: whenever `purchasedAt` is falsy, `shelfLifeDays` is absent or
non-positive, or `purchasedAt` does not parse, `computeSpoilage` returns the
all-null Unknown result.  The embedded `computeSpoilage` is a total
function: it raises nothing on any input. -/
theorem computeSpoilage_invalid_unknown (i : Ingredient) (now thr : Int)
    (h : i.purchasedAt = DateStr.nullish ∨ i.shelfLifeDays = none ∨
         (∃ s, i.shelfLifeDays = some s ∧ s ≤ 0) ∨ i.purchasedAt = DateStr.invalid) :
    computeSpoilage i now thr =
      { expiryDate := none, daysRemaining := none,
        spoilageStatus := SpoilageStatus.Unknown } := by
  rcases h with h | h | ⟨s, hsl, hs0⟩ | h
  · simp [computeSpoilage, h]
  · simp only [computeSpoilage, h]
    split <;> rfl
  · by_cases hn : i.purchasedAt = DateStr.nullish
    · simp [computeSpoilage, hn]
    · simp [computeSpoilage, hn, hsl, hs0]
  · rcases hsl : i.shelfLifeDays with _ | s
    · simp only [computeSpoilage, h, hsl, reduceCtorEq, if_false]
    · simp only [computeSpoilage, h, hsl, reduceCtorEq, if_false]
      split <;> rfl

/-- C2 witness: a never-purchased ingredient reports the all-null Unknown
result. -/
theorem computeSpoilage_invalid_unknown_witness :
    computeSpoilage sampleIngredient 0 3 =
      { expiryDate := none, daysRemaining := none,
        spoilageStatus := SpoilageStatus.Unknown } :=
  computeSpoilage_invalid_unknown sampleIngredient 0 3 (Or.inl rfl)

/-- C3: with `purchasedAt` and `shelfLifeDays` fixed, `daysRemaining` is
non-increasing as `now` advances, and the status only moves forward along
Fresh → NearExpiry → Expired (Unknown stays Unknown). -/
theorem computeSpoilage_monotone (i : Ingredient) (thr now1 now2 : Int)
    (h12 : now1 ≤ now2) :
    (∀ d1 d2, (computeSpoilage i now1 thr).daysRemaining = some d1 →
      (computeSpoilage i now2 thr).daysRemaining = some d2 → d2 ≤ d1) ∧
    statusStep (computeSpoilage i now1 thr).spoilageStatus
      (computeSpoilage i now2 thr).spoilageStatus = true := by
  cases hpa : i.purchasedAt with
  | nullish => simp [computeSpoilage, hpa, statusStep]
  | invalid =>
    rcases hsl : i.shelfLifeDays with _ | s
    · simp [computeSpoilage, hpa, hsl, statusStep]
    · by_cases hs : s ≤ 0
      · simp [computeSpoilage, hpa, hsl, hs, statusStep]
      · simp [computeSpoilage, hpa, hsl, hs, statusStep]
  | valid t =>
    rcases hsl : i.shelfLifeDays with _ | s
    · simp [computeSpoilage, hpa, hsl, statusStep]
    · by_cases hs : s ≤ 0
      · simp [computeSpoilage, hpa, hsl, hs, statusStep]
      · have hceil :
            Int.ceil (((t + s * msPerDay - now2 : Int) : ℚ) / (msPerDay : ℚ)) ≤
            Int.ceil (((t + s * msPerDay - now1 : Int) : ℚ) / (msPerDay : ℚ)) := by
          apply Int.ceil_le_ceil
          have hpos : (0 : ℚ) < (msPerDay : ℚ) := by norm_num [msPerDay]
          apply div_le_div_of_nonneg_right ?_ hpos.le
          have h12q : (now1 : ℚ) ≤ (now2 : ℚ) := by exact_mod_cast h12
          push_cast
          linarith
        constructor
        · intro d1 d2 h1 h2
          simp only [computeSpoilage, hpa, hsl, reduceCtorEq, if_false,
            if_neg hs, Option.some.injEq] at h1 h2
          omega
        · simp only [computeSpoilage, hpa, hsl, reduceCtorEq, if_false, if_neg hs]
          split_ifs <;> simp [statusStep] <;> omega

/-- C3 witness: the epoch-purchased 7-day ingredient moves from Fresh
(`daysRemaining = 6` at day 1) to NearExpiry (`daysRemaining = 3` at day 4),
never backward. -/
theorem computeSpoilage_monotone_witness :
    (∀ d1 d2,
      (computeSpoilage purchasedIngredient (1 * msPerDay) 3).daysRemaining = some d1 →
      (computeSpoilage purchasedIngredient (4 * msPerDay) 3).daysRemaining = some d2 →
      d2 ≤ d1) ∧
    statusStep (computeSpoilage purchasedIngredient (1 * msPerDay) 3).spoilageStatus
      (computeSpoilage purchasedIngredient (4 * msPerDay) 3).spoilageStatus = true :=
  computeSpoilage_monotone purchasedIngredient 3 (1 * msPerDay) (4 * msPerDay)
    (by norm_num [msPerDay])

/-- Reading back the key just written: if `id` is bound to `v`, then after
`Store.updateFields` it is bound to `f v`. -/
theorem store_get_updateFields (s : Store) (id : String) (f : Ingredient → Ingredient)
    (v : Ingredient) (h : Store.get s id = some v) :
    Store.get (Store.updateFields s id f) id = some (f v) := by
  induction s with
  | nil => simp [Store.get] at h
  | cons kv rest ih =>
    obtain ⟨k, w⟩ := kv
    by_cases hk : k = id
    · subst hk
      have h' : w = v := by simpa [Store.get] using h
      subst h'
      simp [Store.updateFields, Store.get]
    · have h' : Store.get rest id = some v := by simpa [Store.get, hk] using h
      simp only [Store.updateFields, if_neg hk, Store.get]
      exact ih h'

/-- C5: a purchase quantity that is not a finite number strictly greater
than zero (zero, negative, NaN, ±Infinity) makes `buyIngredient` fail fast:
failure result with a message, all payload fields null, and the store left
exactly as it was, for every store and every transaction behaviour (no
store access happens). -/
theorem buyIngredient_invalid_qty (id : String) (q : JSNum) (store : Store)
    (txFail : Option String) (now : Int)
    (h : ∀ p : ℚ, q = JSNum.fin p → p ≤ 0) :
    ((buyIngredient ⟨id, q⟩ store txFail now).1.success = false ∧
     (buyIngredient ⟨id, q⟩ store txFail now).1.error ≠ none ∧
     (buyIngredient ⟨id, q⟩ store txFail now).1.updatedIngredient = none ∧
     (buyIngredient ⟨id, q⟩ store txFail now).1.previousStockQty = none ∧
     (buyIngredient ⟨id, q⟩ store txFail now).1.newStockQty = none) ∧
    (buyIngredient ⟨id, q⟩ store txFail now).2 = store := by
  cases q with
  | nan => simp [buyIngredient, JSNum.leZero]
  | posInf => simp [buyIngredient, JSNum.leZero]
  | negInf => simp [buyIngredient, JSNum.leZero]
  | fin p =>
    have hp : p ≤ 0 := h p rfl
    simp [buyIngredient, JSNum.leZero, hp]

/-- C5 witness: `purchasedQty = 0` fails with no store change. -/
theorem buyIngredient_invalid_qty_witness :
    ((buyIngredient ⟨"ing-1", JSNum.fin 0⟩ sampleStore none 0).1.success = false ∧
     (buyIngredient ⟨"ing-1", JSNum.fin 0⟩ sampleStore none 0).1.error ≠ none ∧
     (buyIngredient ⟨"ing-1", JSNum.fin 0⟩ sampleStore none 0).1.updatedIngredient = none ∧
     (buyIngredient ⟨"ing-1", JSNum.fin 0⟩ sampleStore none 0).1.previousStockQty = none ∧
     (buyIngredient ⟨"ing-1", JSNum.fin 0⟩ sampleStore none 0).1.newStockQty = none) ∧
    (buyIngredient ⟨"ing-1", JSNum.fin 0⟩ sampleStore none 0).2 = sampleStore :=
  buyIngredient_invalid_qty "ing-1" (JSNum.fin 0) sampleStore none 0
    (fun p hp => by
      injection hp with h
      rw [← h])

/-- C6: with a valid quantity but an id absent from the store,
`buyIngredient` returns a failure result with all payload fields null and
the store state unchanged, for every transaction behaviour. -/
theorem buyIngredient_not_found (id : String) (p : ℚ) (store : Store)
    (txFail : Option String) (now : Int) (hp : 0 < p)
    (habs : Store.get store id = none) :
    ((buyIngredient ⟨id, JSNum.fin p⟩ store txFail now).1.success = false ∧
     (buyIngredient ⟨id, JSNum.fin p⟩ store txFail now).1.error ≠ none ∧
     (buyIngredient ⟨id, JSNum.fin p⟩ store txFail now).1.updatedIngredient = none ∧
     (buyIngredient ⟨id, JSNum.fin p⟩ store txFail now).1.previousStockQty = none ∧
     (buyIngredient ⟨id, JSNum.fin p⟩ store txFail now).1.newStockQty = none) ∧
    (buyIngredient ⟨id, JSNum.fin p⟩ store txFail now).2 = store := by
  have hq : ¬ p ≤ 0 := not_le.mpr hp
  cases txFail with
  | some msg => simp [buyIngredient, JSNum.leZero, hq]
  | none => simp [buyIngredient, JSNum.leZero, hq, habs]

/-- C6 witness: buying 5 of an unknown id fails and leaves the store
alone. -/
theorem buyIngredient_not_found_witness :
    ((buyIngredient ⟨"missing", JSNum.fin 5⟩ sampleStore none 0).1.success = false ∧
     (buyIngredient ⟨"missing", JSNum.fin 5⟩ sampleStore none 0).1.error ≠ none ∧
     (buyIngredient ⟨"missing", JSNum.fin 5⟩ sampleStore none 0).1.updatedIngredient = none ∧
     (buyIngredient ⟨"missing", JSNum.fin 5⟩ sampleStore none 0).1.previousStockQty = none ∧
     (buyIngredient ⟨"missing", JSNum.fin 5⟩ sampleStore none 0).1.newStockQty = none) ∧
    (buyIngredient ⟨"missing", JSNum.fin 5⟩ sampleStore none 0).2 = sampleStore :=
  buyIngredient_not_found "missing" 5 sampleStore none 0 (by norm_num) rfl

/-- C7: on a present id with a valid quantity and a functioning store,
`buyIngredient` succeeds with `previousStockQty` the old stock,
`newStockQty = old + purchasedQty`, commits exactly the stock increment and
`purchasedAt := now` to the store, and returns as `updatedIngredient` the
re-read committed record. -/
theorem buyIngredient_success (id : String) (p : ℚ) (store : Store) (now : Int)
    (ing : Ingredient) (hp : 0 < p) (hget : Store.get store id = some ing) :
    buyIngredient ⟨id, JSNum.fin p⟩ store none now =
      ({ success := true, error := none,
         updatedIngredient := some
           { ing with stockQty := ing.stockQty + p, purchasedAt := DateStr.valid now },
         previousStockQty := some ing.stockQty,
         newStockQty := some (ing.stockQty + p) },
       Store.updateFields store id (fun j =>
         { j with stockQty := ing.stockQty + p, purchasedAt := DateStr.valid now })) ∧
    (buyIngredient ⟨id, JSNum.fin p⟩ store none now).1.updatedIngredient =
      Store.get (buyIngredient ⟨id, JSNum.fin p⟩ store none now).2 id := by
  have hq : ¬ p ≤ 0 := not_le.mpr hp
  have hupd := store_get_updateFields store id
    (fun j => { j with stockQty := ing.stockQty + p, purchasedAt := DateStr.valid now })
    ing hget
  constructor
  · simp only [buyIngredient, JSNum.leZero, decide_eq_true_eq, hq, if_false, hget]
    rw [hupd]
  · simp only [buyIngredient, JSNum.leZero, decide_eq_true_eq, hq, if_false, hget]

/-- C7 witness: the spec scenario — buying 5 on `{stockQty: 2,
purchasedAt: null}` yields `previousStockQty = 2`, `newStockQty = 7`, and a
committed record whose `purchasedAt` is the call-time instant. -/
theorem buyIngredient_success_witness :
    (buyIngredient ⟨"ing-1", JSNum.fin 5⟩ sampleStore none 1234).1.previousStockQty =
      some 2 ∧
    (buyIngredient ⟨"ing-1", JSNum.fin 5⟩ sampleStore none 1234).1.newStockQty = some 7 ∧
    (buyIngredient ⟨"ing-1", JSNum.fin 5⟩ sampleStore none 1234).1.success = true ∧
    ((buyIngredient ⟨"ing-1", JSNum.fin 5⟩ sampleStore none 1234).1.updatedIngredient.map
      Ingredient.purchasedAt) = some (DateStr.valid 1234) := by
  have h := (buyIngredient_success "ing-1" 5 sampleStore 1234 sampleIngredient
    (by norm_num) rfl).1
  rw [h]
  refine ⟨rfl, ?_, rfl, rfl⟩
  simp only [sampleIngredient]
  norm_num

/-- C8 counterexample: the claim quantifies over all four action-layer
entry points, but `createIngredient` has no `try`/`catch` — a rejecting
`db.ingredients.add` propagates to the caller instead of being converted
into a failure-shaped result. -/
theorem createIngredient_error_escapes :
    createIngredient "id-1"
      { name := "Milk", unit := "L", stockQty := 1, shelfLifeDays := 7 }
      [] (some "store offline") = Except.error "store offline" := rfl

/-- C8 amended: `buyIngredient` alone guarantees the boundary — any store
transaction rejection is caught and converted into the failure-result shape
with the underlying message preserved and no store mutation; the CRUD entry
points return ordinary (non-error) values whenever the store operations
succeed, but propagate a store rejection. -/
theorem actionLayer_error_boundary (id freshId : String) (data : IngredientFormData)
    (patch : IngredientFormPatch) (p : ℚ) (store : Store) (msg : String) (now : Int)
    (hp : 0 < p) :
    buyIngredient ⟨id, JSNum.fin p⟩ store (some msg) now =
      ({ success := false, error := some msg, updatedIngredient := none,
         previousStockQty := none, newStockQty := none }, store) ∧
    (∃ out, createIngredient freshId data store none = Except.ok out) ∧
    (∃ out, updateIngredient id patch store none = Except.ok out) ∧
    (∃ out, deleteIngredient id store none = Except.ok out) := by
  have hq : ¬ p ≤ 0 := not_le.mpr hp
  refine ⟨?_, ⟨_, rfl⟩, ?_, ?_⟩
  · simp [buyIngredient, JSNum.leZero, hq]
  · unfold updateIngredient
    cases Store.get store id <;> exact ⟨_, rfl⟩
  · unfold deleteIngredient
    cases Store.get store id <;> exact ⟨_, rfl⟩

/-- C8 amended witness: concrete instantiation — a rejecting transaction
under `buyIngredient` surfaces as a failure result carrying the store's
message, and the CRUD operations on a functioning store return plain
values. -/
theorem actionLayer_error_boundary_witness :
    buyIngredient ⟨"ing-1", JSNum.fin 5⟩ sampleStore (some "tx aborted") 0 =
      ({ success := false, error := some "tx aborted", updatedIngredient := none,
         previousStockQty := none, newStockQty := none }, sampleStore) ∧
    (∃ out, createIngredient "id-9"
      { name := "Egg", unit := "pcs", stockQty := 12, shelfLifeDays := 21 }
      sampleStore none = Except.ok out) ∧
    (∃ out, updateIngredient "ing-1"
      { name := none, unit := none, stockQty := some 10, shelfLifeDays := none }
      sampleStore none = Except.ok out) ∧
    (∃ out, deleteIngredient "ing-1" sampleStore none = Except.ok out) :=
  actionLayer_error_boundary "ing-1" "id-9"
    { name := "Egg", unit := "pcs", stockQty := 12, shelfLifeDays := 21 }
    { name := none, unit := none, stockQty := some 10, shelfLifeDays := none }
    5 sampleStore "tx aborted" 0 (by norm_num)

/-- C9: `updateIngredient` on an absent id returns null (`none`) without
error and leaves the store unchanged; on a present id it merges exactly the
fields present in the patch (textual fields trimmed), leaves unset fields
untouched, never modifies `id` or `purchasedAt`, and returns the re-read
committed record. -/
theorem updateIngredient_spec (id : String) (patch : IngredientFormPatch)
    (store : Store) :
    (Store.get store id = none →
      updateIngredient id patch store none = Except.ok (none, store)) ∧
    (∀ ing : Ingredient, Store.get store id = some ing →
      ∃ ing' : Ingredient,
        updateIngredient id patch store none =
          Except.ok (some ing',
            Store.updateFields store id (fun j =>
              { j with
                name := match patch.name with
                  | some n => n.trim
                  | none => j.name
                unit := match patch.unit with
                  | some u => u.trim
                  | none => j.unit
                stockQty := match patch.stockQty with
                  | some q => q
                  | none => j.stockQty
                shelfLifeDays := match patch.shelfLifeDays with
                  | some d => some d
                  | none => j.shelfLifeDays })) ∧
        ing'.id = ing.id ∧
        ing'.purchasedAt = ing.purchasedAt ∧
        (patch.name = none → ing'.name = ing.name) ∧
        (patch.unit = none → ing'.unit = ing.unit) ∧
        (patch.stockQty = none → ing'.stockQty = ing.stockQty) ∧
        (patch.shelfLifeDays = none → ing'.shelfLifeDays = ing.shelfLifeDays) ∧
        (∀ n, patch.name = some n → ing'.name = n.trim) ∧
        (∀ u, patch.unit = some u → ing'.unit = u.trim) ∧
        (∀ q, patch.stockQty = some q → ing'.stockQty = q) ∧
        (∀ d, patch.shelfLifeDays = some d → ing'.shelfLifeDays = some d)) := by
  constructor
  · intro habs
    simp [updateIngredient, habs]
  · intro ing hget
    have hupd := store_get_updateFields store id
      (fun j =>
        { j with
          name := match patch.name with
            | some n => n.trim
            | none => j.name
          unit := match patch.unit with
            | some u => u.trim
            | none => j.unit
          stockQty := match patch.stockQty with
            | some q => q
            | none => j.stockQty
          shelfLifeDays := match patch.shelfLifeDays with
            | some d => some d
            | none => j.shelfLifeDays })
      ing hget
    refine ⟨{ ing with
        name := match patch.name with
          | some n => n.trim
          | none => ing.name
        unit := match patch.unit with
          | some u => u.trim
          | none => ing.unit
        stockQty := match patch.stockQty with
          | some q => q
          | none => ing.stockQty
        shelfLifeDays := match patch.shelfLifeDays with
          | some d => some d
          | none => ing.shelfLifeDays },
      ?_, rfl, rfl, ?_, ?_, ?_, ?_, ?_, ?_, ?_, ?_⟩
    · simp only [updateIngredient, hget]
      rw [hupd]
    · intro h
      simp [h]
    · intro h
      simp [h]
    · intro h
      simp [h]
    · intro h
      simp [h]
    · intro n h
      simp [h]
    · intro u h
      simp [h]
    · intro q h
      simp [h]
    · intro d h
      simp [h]

/-- C9 witness: the spec scenario `update(id, {stockQty: 10})` on a
nonexistent id returns null and changes nothing; on the present id the
stock is set to 10 while `id` and `purchasedAt` stay untouched. -/
theorem updateIngredient_spec_witness :
    updateIngredient "missing"
      { name := none, unit := none, stockQty := some 10, shelfLifeDays := none }
      sampleStore none = Except.ok (none, sampleStore) ∧
    (∃ ing' : Ingredient,
      (updateIngredient "ing-1"
        { name := none, unit := none, stockQty := some 10, shelfLifeDays := none }
        sampleStore none).map (fun out => out.1) = Except.ok (some ing') ∧
      ing'.stockQty = 10 ∧ ing'.id = "ing-1" ∧ ing'.purchasedAt = DateStr.nullish) := by
  constructor
  · exact (updateIngredient_spec "missing"
      { name := none, unit := none, stockQty := some 10, shelfLifeDays := none }
      sampleStore).1 rfl
  · obtain ⟨ing', heq, hid, hpa, -, -, -, -, -, -, hq, -⟩ :=
      (updateIngredient_spec "ing-1"
        { name := none, unit := none, stockQty := some 10, shelfLifeDays := none }
        sampleStore).2 sampleIngredient rfl
    refine ⟨ing', ?_, hq 10 rfl, ?_, ?_⟩
    · rw [heq]
      rfl
    · rw [hid]
      rfl
    · rw [hpa]
      rfl

/-- The urgency comparator is sign-antisymmetric, as a JS comparator must
be: swapping the arguments negates the result. -/
theorem compareUrgency_neg (a b : IngredientWithSpoilage) :
    compareUrgency b a = -compareUrgency a b := by
  simp only [compareUrgency]
  rcases ha : a.daysRemaining with _ | x <;> rcases hb : b.daysRemaining with _ | y <;>
    simp only [ha, hb] <;> split_ifs <;> omega

/-- The boolean order induced by the comparator is total. -/
theorem compareUrgency_total (a b : IngredientWithSpoilage) :
    (decide (compareUrgency a b ≤ 0) || decide (compareUrgency b a ≤ 0)) = true := by
  rw [Bool.or_eq_true, decide_eq_true_eq, decide_eq_true_eq, compareUrgency_neg]
  omega

/-- The boolean order induced by the comparator is transitive. -/
theorem compareUrgency_trans (a b c : IngredientWithSpoilage)
    (hab : compareUrgency a b ≤ 0) (hbc : compareUrgency b c ≤ 0) :
    compareUrgency a c ≤ 0 := by
  simp only [compareUrgency] at hab hbc ⊢
  rcases ha : a.daysRemaining with _ | x <;> rcases hb : b.daysRemaining with _ | y <;>
    rcases hc : c.daysRemaining with _ | z <;>
    simp only [ha, hb, hc] at hab hbc ⊢ <;>
    split_ifs at hab hbc ⊢ <;> omega

/-- A non-positive comparison implies the status precedences are ordered. -/
theorem compareUrgency_le_status (a b : IngredientWithSpoilage)
    (h : compareUrgency a b ≤ 0) :
    statusOrder a.spoilageStatus ≤ statusOrder b.spoilageStatus := by
  simp only [compareUrgency] at h
  split_ifs at h with hd
  · omega
  · omega

/-- A non-positive comparison between equal-status entries implies the
nulls-last order on `daysRemaining`. -/
theorem compareUrgency_le_dr (a b : IngredientWithSpoilage)
    (h : compareUrgency a b ≤ 0) (hst : a.spoilageStatus = b.spoilageStatus) :
    drNullsLastLe a.daysRemaining b.daysRemaining = true := by
  have h' :
      (match a.daysRemaining, b.daysRemaining with
        | none, none => (0 : Int)
        | none, some _ => 1
        | some _, none => -1
        | some x, some y => x - y) ≤ 0 := by
    simpa [compareUrgency, hst] using h
  rcases ha : a.daysRemaining with _ | x <;> rcases hb : b.daysRemaining with _ | y <;>
    simp only [ha, hb] at h' <;> simp [drNullsLastLe] <;> omega

/-- C4: `sortByExpiryUrgency` orders the output so that status buckets
appear in the fixed precedence Expired < NearExpiry < Fresh < Unknown
(every pair of output positions is ordered by status precedence), within a
status bucket `daysRemaining` is non-decreasing with nulls last, and the
sort is stable: two entries that compare equal and occur in this order in
the input still occur in this order in the output. -/
theorem sortByExpiryUrgency_spec (l : List IngredientWithSpoilage) :
    ((sortByExpiryUrgency l).Pairwise
      (fun a b => statusOrder a.spoilageStatus ≤ statusOrder b.spoilageStatus)) ∧
    ((sortByExpiryUrgency l).Pairwise
      (fun a b => a.spoilageStatus = b.spoilageStatus →
        drNullsLastLe a.daysRemaining b.daysRemaining = true)) ∧
    (∀ a b, compareUrgency a b = 0 → [a, b].Sublist l →
      [a, b].Sublist (sortByExpiryUrgency l)) := by
  have htrans : ∀ (a b c : IngredientWithSpoilage),
      (fun a b => decide (compareUrgency a b ≤ 0)) a b →
      (fun a b => decide (compareUrgency a b ≤ 0)) b c →
      (fun a b => decide (compareUrgency a b ≤ 0)) a c := by
    intro a b c hab hbc
    simp only [decide_eq_true_eq] at hab hbc ⊢
    exact compareUrgency_trans a b c hab hbc
  have htotal : ∀ (a b : IngredientWithSpoilage),
      ((fun a b => decide (compareUrgency a b ≤ 0)) a b ||
       (fun a b => decide (compareUrgency a b ≤ 0)) b a) = true := by
    intro a b
    exact compareUrgency_total a b
  have hsorted := List.sorted_mergeSort htrans htotal l
  refine ⟨?_, ?_, ?_⟩
  · refine List.Pairwise.imp ?_ hsorted
    intro a b hab
    simp only [decide_eq_true_eq] at hab
    exact compareUrgency_le_status a b hab
  · refine List.Pairwise.imp ?_ hsorted
    intro a b hab hst
    simp only [decide_eq_true_eq] at hab
    exact compareUrgency_le_dr a b hab hst
  · intro a b hcmp hsub
    have hab : (fun a b => decide (compareUrgency a b ≤ 0)) a b := by
      simp only [decide_eq_true_eq, hcmp, le_refl]
    exact List.pair_sublist_mergeSort htrans htotal hab hsub

/-- C4 witness: two equal-comparing Fresh entries keep their input order
ahead of an Unknown entry. -/
theorem sortByExpiryUrgency_spec_witness :
    compareUrgency enrichedA enrichedB = 0 ∧
    [enrichedA, enrichedB].Sublist
      (sortByExpiryUrgency [enrichedA, enrichedB, enrichedUnknown]) := by
  have hcmp : compareUrgency enrichedA enrichedB = 0 := by
    simp [compareUrgency, enrichedA, enrichedB, statusOrder]
  refine ⟨hcmp, ?_⟩
  exact (sortByExpiryUrgency_spec [enrichedA, enrichedB, enrichedUnknown]).2.2
    enrichedA enrichedB hcmp
    (List.Sublist.cons₂ enrichedA (List.Sublist.cons₂ enrichedB
      (List.nil_sublist [enrichedUnknown])))

/-- C10: `sortByExpiryUrgency` returns a permutation of its input — same
elements with the same multiplicities.  The embedding is a pure function on
immutable lists (the source sorts a spread copy of the array), so the
caller's list and its elements are unchanged by construction. -/
theorem sortByExpiryUrgency_perm (l : List IngredientWithSpoilage) :
    (sortByExpiryUrgency l).Perm l := by
  unfold sortByExpiryUrgency
  exact List.mergeSort_perm l (fun a b => decide (compareUrgency a b ≤ 0))
